import Mathlib

/-!
Verification of the cricket-dashboard analytics and data layer
(`src/lib/statsUtils.ts` and the storage `DataService`).

Modelling conventions (shallow embedding):
* JavaScript numbers are modelled by `JsNum`: either an exact rational
  (`JsNum.num q`) or one of the IEEE special values `nan`, `inf`, `negInf`.
  Player records store finite numbers, so their numeric fields are plain `ℚ`;
  special values only arise from unguarded divisions inside the computations,
  exactly as in the source.  Arithmetic on `JsNum` follows the ECMAScript
  rules for these values (`0/0 = NaN`, `x/0 = ±Infinity` for `x ≠ 0`,
  `Infinity - Infinity = NaN`, `Math.min`/`Math.max` propagate `NaN`,
  comparisons with `NaN` are false, `Math.round x = ⌊x + 1/2⌋`).
* `Math.sqrt` is modelled by the computable rational square root
  `Rat.sqrt` (exact on perfect squares).  Every division feeding a square
  root in the verified code is guarded, and no theorem below depends on the
  value of a square root, only on it being a finite number.
* Computations that stay within guarded, finite arithmetic are given the
  type `ℚ` directly; computations containing an unguarded division return
  `JsNum`.
-/

/-- A JavaScript number: a finite (exact rational) value or one of the IEEE
special values `NaN`, `Infinity`, `-Infinity`. -/
inductive JsNum where
  | nan
  | inf
  | negInf
  | num (q : ℚ)
deriving DecidableEq

/-- Inject a finite rational into `JsNum`. -/
def jq (q : ℚ) : JsNum := JsNum.num q

namespace JsNum

/-- JS addition. -/
def add : JsNum → JsNum → JsNum
  | nan, _ => nan
  | _, nan => nan
  | inf, negInf => nan
  | negInf, inf => nan
  | inf, _ => inf
  | _, inf => inf
  | negInf, _ => negInf
  | _, negInf => negInf
  | num a, num b => num (a + b)

/-- JS negation. -/
def neg : JsNum → JsNum
  | nan => nan
  | inf => negInf
  | negInf => inf
  | num q => num (-q)

/-- JS subtraction. -/
def sub (x y : JsNum) : JsNum := add x (neg y)

/-- JS multiplication. -/
def mul : JsNum → JsNum → JsNum
  | nan, _ => nan
  | _, nan => nan
  | inf, inf => inf
  | inf, negInf => negInf
  | negInf, inf => negInf
  | negInf, negInf => inf
  | inf, num q => if 0 < q then inf else if q < 0 then negInf else nan
  | num q, inf => if 0 < q then inf else if q < 0 then negInf else nan
  | negInf, num q => if 0 < q then negInf else if q < 0 then inf else nan
  | num q, negInf => if 0 < q then negInf else if q < 0 then inf else nan
  | num a, num b => num (a * b)

/-- JS division (we do not model negative zero: division of a nonzero
finite value by zero yields the infinity matching the numerator's sign). -/
def div : JsNum → JsNum → JsNum
  | nan, _ => nan
  | _, nan => nan
  | inf, inf => nan
  | inf, negInf => nan
  | negInf, inf => nan
  | negInf, negInf => nan
  | inf, num q => if q < 0 then negInf else inf
  | negInf, num q => if q < 0 then inf else negInf
  | num _, inf => num 0
  | num _, negInf => num 0
  | num a, num b =>
      if b = 0 then (if a = 0 then nan else if 0 < a then inf else negInf)
      else num (a / b)

instance : Add JsNum := ⟨JsNum.add⟩
instance : Neg JsNum := ⟨JsNum.neg⟩
instance : Sub JsNum := ⟨JsNum.sub⟩
instance : Mul JsNum := ⟨JsNum.mul⟩
instance : Div JsNum := ⟨JsNum.div⟩

/-- `Math.max` (NaN-propagating). -/
def jmax : JsNum → JsNum → JsNum
  | nan, _ => nan
  | _, nan => nan
  | inf, _ => inf
  | _, inf => inf
  | negInf, y => y
  | x, negInf => x
  | num a, num b => num (max a b)

/-- `Math.min` (NaN-propagating). -/
def jmin : JsNum → JsNum → JsNum
  | nan, _ => nan
  | _, nan => nan
  | negInf, _ => negInf
  | _, negInf => negInf
  | inf, y => y
  | x, inf => x
  | num a, num b => num (min a b)

/-- The JS `<` comparison as a Boolean (false whenever an operand is NaN). -/
def ltb : JsNum → JsNum → Bool
  | nan, _ => false
  | _, nan => false
  | negInf, negInf => false
  | negInf, _ => true
  | _, negInf => false
  | inf, _ => false
  | num _, inf => true
  | num a, num b => decide (a < b)

/-- The JS `<=` comparison as a Boolean (false whenever an operand is NaN). -/
def leb : JsNum → JsNum → Bool
  | nan, _ => false
  | _, nan => false
  | negInf, _ => true
  | _, negInf => false
  | _, inf => true
  | inf, num _ => false
  | num a, num b => decide (a ≤ b)

/-- The JS `>` comparison. -/
def gtb (x y : JsNum) : Bool := ltb y x

/-- The JS `>=` comparison. -/
def geb (x y : JsNum) : Bool := leb y x

/-- `Math.round` on a rational: halves round toward `+∞`. -/
def ratRound (q : ℚ) : ℚ := (⌊q + 1/2⌋ : ℤ)

/-- `Math.round`. -/
def jsRound : JsNum → JsNum
  | nan => nan
  | inf => inf
  | negInf => negInf
  | num q => num (ratRound q)

/-- `Math.sqrt`, with `Rat.sqrt` standing in for the real square root of a
nonnegative finite value. -/
def jsSqrt : JsNum → JsNum
  | nan => nan
  | inf => inf
  | negInf => nan
  | num q => if q < 0 then nan else num (Rat.sqrt q)

/-- The `Math.round(x * 10) / 10` pattern (one decimal place). -/
def roundTo1 (x : JsNum) : JsNum := jsRound (x * jq 10) / jq 10

@[simp] theorem jq_add (a b : ℚ) : jq a + jq b = jq (a + b) := rfl

@[simp] theorem jq_sub (a b : ℚ) : jq a - jq b = jq (a - b) := by
  show add (num a) (neg (num b)) = num (a - b)
  simp [add, neg, sub_eq_add_neg]

@[simp] theorem jq_mul (a b : ℚ) : jq a * jq b = jq (a * b) := rfl

theorem jq_div (a : ℚ) {b : ℚ} (hb : b ≠ 0) : jq a / jq b = jq (a / b) := by
  show div (num a) (num b) = num (a / b)
  simp [div, hb]

@[simp] theorem jmax_jq (a b : ℚ) : jmax (jq a) (jq b) = jq (max a b) := rfl

@[simp] theorem jmin_jq (a b : ℚ) : jmin (jq a) (jq b) = jq (min a b) := rfl

@[simp] theorem jsRound_jq (a : ℚ) : jsRound (jq a) = jq (ratRound a) := rfl

@[simp] theorem roundTo1_jq (a : ℚ) : roundTo1 (jq a) = jq (ratRound (a * 10) / 10) := by
  show jsRound (jq a * jq 10) / jq 10 = _
  rw [jq_mul, jsRound_jq, jq_div _ (by norm_num : (10:ℚ) ≠ 0)]

@[simp] theorem nan_ne_jq (a : ℚ) : nan ≠ jq a := by
  intro h; cases h

@[simp] theorem jq_ne_nan (a : ℚ) : jq a ≠ nan := by
  intro h; cases h

theorem ratRound_le_ratRound {a b : ℚ} (h : a ≤ b) : ratRound a ≤ ratRound b := by
  unfold ratRound
  exact_mod_cast Int.floor_le_floor (by linarith)

end JsNum

open JsNum

/-- A player record (`@/data/players`, fields read by the verified code).
All stored numeric statistics are finite JS numbers, modelled as `ℚ`. -/
structure Player where
  id : String
  name : String
  role : String
  image : Option String
  battingAverage : ℚ
  strikeRate : ℚ
  bowlingEconomy : ℚ
  fitnessScore : ℚ
  fieldingRating : ℚ
  matchesPlayed : ℚ
  totalRuns : ℚ
  wickets : ℚ
  fours : ℚ
  sixes : ℚ
  catches : ℚ
  runsPerMatch : List ℚ
  wicketsPerMatch : List ℚ
deriving DecidableEq

/-- Sum of a list of rationals, as the source's `reduce((sum, val) => sum + val, 0)`. -/
def sumQ (l : List ℚ) : ℚ := l.foldl (· + ·) 0

/-- `calculateMean` (statsUtils): arithmetic mean, `0` on the empty list. -/
def calculateMean (values : List ℚ) : ℚ :=
  if values.length = 0 then 0 else sumQ values / values.length

/-- `calculateStandardDeviation` (statsUtils). -/
def calculateStandardDeviation (values : List ℚ) : ℚ :=
  if values.length = 0 then 0
  else
    Rat.sqrt (calculateMean (values.map (fun v => (v - calculateMean values) ^ 2)))

/-- `clamp` (statsUtils): `Math.min(Math.max(value, lo), hi)`. -/
def clampQ (value lo hi : ℚ) : ℚ := min (max value lo) hi

/-- `calculateConsistencyScore` (statsUtils).  Every division is guarded, so
the result is a finite number. -/
def calculateConsistencyScore (values : List ℚ) : ℚ :=
  if values.length < 2 then 50
  else
    let mean := calculateMean values
    if mean = 0 then 50
    else
      let stdDev := calculateStandardDeviation values
      let coefficientOfVariation := stdDev / mean * 100
      clampQ (100 - coefficientOfVariation) 0 100

/-- `calculateSixToFourRatio` (statsUtils): explicitly returns `Infinity`
when `fours = 0 < sixes`. -/
def calculateSixToFourRatio (player : Player) : JsNum :=
  if player.fours = 0 then (if 0 < player.sixes then JsNum.inf else jq 0)
  else jq player.sixes / jq player.fours

/-- `calculateRunsPerMatch` (statsUtils). -/
def calculateRunsPerMatch (player : Player) : JsNum :=
  if player.matchesPlayed = 0 then jq 0
  else jq player.totalRuns / jq player.matchesPlayed

/-- `calculateWicketsPerMatch` (statsUtils). -/
def calculateWicketsPerMatch (player : Player) : JsNum :=
  if player.matchesPlayed = 0 then jq 0
  else jq player.wickets / jq player.matchesPlayed

/-- `calculateBowlingIndex` (statsUtils).  The only unguarded division is
`wickets / matchesPlayed` inside `wicketsScore`. -/
def calculateBowlingIndex (player : Player) : JsNum :=
  if player.wickets = 0 then jq 0
  else
    let economyScore := max 0 ((10 - player.bowlingEconomy) / 10) * 100
    let wicketsScore := jmin (jq player.wickets / jq player.matchesPlayed * jq 20) (jq 100)
    let consistency := calculateConsistencyScore player.wicketsPerMatch
    let experience := min (player.matchesPlayed / 150) 1 * 100
    jq (economyScore * (35/100)) + wicketsScore * jq (35/100)
      + jq (consistency * (2/10)) + jq (experience * (1/10))

/-- Result of `compareValues` (statsUtils). -/
inductive CompareResult where
  | higher
  | lower
  | equal
deriving DecidableEq

/-- `compareValues` (statsUtils). -/
def compareValues (a b : ℚ) : CompareResult :=
  if |a - b| < 1/100 then .equal
  else if b < a then .higher else .lower

/-- Result of `calculateTrendDirection` (statsUtils). -/
inductive TrendDirection where
  | up
  | down
  | stable
deriving DecidableEq

/-- `calculateTrendDirection` (statsUtils). -/
def calculateTrendDirection (values : List ℚ) : TrendDirection :=
  if values.length < 4 then .stable
  else
    let firstHalf := values.take (values.length / 2)
    let secondHalf := values.drop (values.length / 2)
    let firstAvg := calculateMean firstHalf
    let secondAvg := calculateMean secondHalf
    let change := if 0 < firstAvg then (secondAvg - firstAvg) / firstAvg * 100 else 0
    if 10 < change then .up
    else if change < -10 then .down
    else .stable

/-- Tail of the exponential moving average: given the previous output value,
produce the outputs for the remaining inputs. -/
def emaAux (alpha : ℚ) : ℚ → List ℚ → List ℚ
  | _, [] => []
  | prev, v :: vs =>
      (alpha * v + (1 - alpha) * prev) :: emaAux alpha (alpha * v + (1 - alpha) * prev) vs

/-- `calculateExponentialMovingAverage` (statsUtils): first output equals the
first input, each later output is `alpha * vᵢ + (1 - alpha) * outᵢ₋₁`. -/
def calculateExponentialMovingAverage (values : List ℚ) (alpha : ℚ) : List ℚ :=
  match values with
  | [] => []
  | v :: vs => v :: emaAux alpha v vs

/-- The `trendMultiplier` computed inside `predictNextValue` (statsUtils). -/
def predictTrendMultiplier (values : List ℚ) : ℚ :=
  match calculateTrendDirection values with
  | .up => 105/100
  | .down => 95/100
  | .stable => 1

/-- `predictNextValue` (statsUtils): last element of the EMA with
`alpha = 0.4`, scaled by the trend multiplier. -/
def predictNextValue (values : List ℚ) : ℚ :=
  match values with
  | [] => 0
  | [v] => v
  | _ =>
      let ema := calculateExponentialMovingAverage values (4/10)
      let lastEma := ema.getLastD 0
      lastEma * predictTrendMultiplier values

-- ==================== ANALYTICS ENGINE ====================

/-- JS `arr.slice(-n)`: the last `min n (length arr)` elements. -/
def lastN (n : ℕ) (l : List α) : List α := l.drop (l.length - n)

/-- `PerformanceMetrics` (statsUtils).  Functions whose divisions are all
guarded have type `ℚ`; the others carry JS special values in `JsNum`. -/
structure PerformanceMetrics where
  overallRating : JsNum
  battingRating : JsNum
  bowlingRating : JsNum
  fieldingRating : ℚ
  consistencyScore : ℚ
  impactScore : ℚ
  formIndex : JsNum
  potentialRating : ℚ
deriving DecidableEq

/-- `FormAnalysis.currentForm` labels. -/
inductive CurrentForm where
  | excellent
  | good
  | average
  | poor
  | critical
deriving DecidableEq

/-- `FormAnalysis.formTrend` labels. -/
inductive FormTrend where
  | rising
  | stable
  | declining
deriving DecidableEq

/-- `FormAnalysis.streak.type` labels. -/
inductive StreakType where
  | positive
  | negative
  | neutral
deriving DecidableEq

/-- `FormAnalysis.streak`. -/
structure Streak where
  type : StreakType
  count : ℕ
deriving DecidableEq

/-- `FormAnalysis` (statsUtils). -/
structure FormAnalysis where
  currentForm : CurrentForm
  formTrend : FormTrend
  last5MatchesAvg : ℚ
  formScore : JsNum
  streak : Streak
deriving DecidableEq

/-- `TeamAnalytics` (statsUtils). -/
structure TeamAnalytics where
  teamStrength : JsNum
  battingDepth : JsNum
  bowlingStrength : ℚ
  fieldingEfficiency : JsNum
  balanceScore : ℚ
  weaknesses : List String
  strengths : List String
deriving DecidableEq

/-- `MatchPrediction` (statsUtils). -/
structure MatchPrediction where
  winProbability : JsNum
  expectedRuns : JsNum
  expectedWickets : JsNum
  keyPlayers : List Player
  riskFactors : List String
  recommendations : List String
deriving DecidableEq

/-- The `AnalyticsEngine` class: its only instance state is the roster. -/
structure AnalyticsEngine where
  players : List Player
deriving DecidableEq

namespace AnalyticsEngine

/-- `AnalyticsEngine.updatePlayers`. -/
def updatePlayers (e : AnalyticsEngine) (players : List Player) : AnalyticsEngine :=
  { e with players := players }

/-- `AnalyticsEngine.calculateBattingRating`: the division by
`matchesPlayed` in `boundaryScore` is unguarded. -/
def calculateBattingRating (player : Player) : JsNum :=
  let avgScore := min (player.battingAverage * (15/10)) 100
  let srScore := min (player.strikeRate / 2) 50
  let boundaryScore := jq (player.fours + player.sixes * (15/10)) / jq player.matchesPlayed * jq 2
  jmin (jq (avgScore * (5/10)) + jq (srScore * (3/10)) + boundaryScore * jq (2/10)) (jq 100)

/-- `AnalyticsEngine.calculateBowlingRating`: guarded on `wickets === 0`
only; the division by `matchesPlayed` is unguarded. -/
def calculateBowlingRating (player : Player) : JsNum :=
  if player.wickets = 0 then jq 0
  else
    let economyScore := max (100 - player.bowlingEconomy * 10) 0
    let wicketRate := jq player.wickets / jq player.matchesPlayed * jq 25
    jmin (jq (economyScore * (5/10)) + wicketRate * jq (5/10)) (jq 100)

/-- `AnalyticsEngine.calculateConsistency`: every division guarded. -/
def calculateConsistency (player : Player) : ℚ :=
  let runs := player.runsPerMatch
  if runs.length = 0 then 50
  else
    let mean := sumQ runs / runs.length
    let variance := sumQ (runs.map (fun val => (val - mean) ^ 2)) / runs.length
    let stdDev := Rat.sqrt variance
    let cv := if 0 < mean then stdDev / mean * 100 else 100
    max (100 - cv) 0

/-- `AnalyticsEngine.calculateImpactScore`: the `runs.length || 1` guard
makes the division safe. -/
def calculateImpactScore (player : Player) : ℚ :=
  let runs := player.runsPerMatch
  let highImpactMatches := (runs.filter (fun r => decide (50 ≤ r))).length
  let matchWinningPotential := (runs.filter (fun r => decide (75 ≤ r))).length
  let wickets := player.wicketsPerMatch
  let impactfulBowling := (wickets.filter (fun w => decide (3 ≤ w))).length
  let impactRatio := ((highImpactMatches * 2 + matchWinningPotential * 3 + impactfulBowling * 2 : ℕ) : ℚ)
    / (if runs.length = 0 then 1 else (runs.length : ℚ))
  min (impactRatio * 20) 100

/-- `AnalyticsEngine.calculateFormIndex`: the division producing
`avgRecentWickets` is unguarded (`wicketsPerMatch` may be empty while
`runsPerMatch` is not). -/
def calculateFormIndex (player : Player) : JsNum :=
  let recentRuns := lastN 5 player.runsPerMatch
  let recentWickets := lastN 5 player.wicketsPerMatch
  if recentRuns.length = 0 then jq 50
  else
    let avgRecentRuns := sumQ recentRuns / recentRuns.length
    let avgRecentWickets := jq (sumQ recentWickets) / jq recentWickets.length
    let overallAvgRuns := sumQ player.runsPerMatch / player.runsPerMatch.length
    let formMultiplier := if 0 < overallAvgRuns then avgRecentRuns / overallAvgRuns else 1
    let formScore := jq (50 * formMultiplier) + avgRecentWickets * jq 10
    jmin (jmax formScore (jq 0)) (jq 100)

/-- `AnalyticsEngine.calculateRecentImprovement`: guarded by the length
check, so both halves are nonempty. -/
def calculateRecentImprovement (player : Player) : ℚ :=
  let runs := player.runsPerMatch
  if runs.length < 6 then 0
  else
    let firstHalf := runs.take (runs.length / 2)
    let secondHalf := runs.drop (runs.length / 2)
    let firstAvg := sumQ firstHalf / firstHalf.length
    let secondAvg := sumQ secondHalf / secondHalf.length
    if 0 < firstAvg then (secondAvg - firstAvg) / firstAvg * 50 else 0

/-- `AnalyticsEngine.calculatePotential`. -/
def calculatePotential (player : Player) : ℚ :=
  let recentImprovement := calculateRecentImprovement player
  let fitnessBonus : ℚ := if 85 < player.fitnessScore then 10 else 0
  let experienceFactor := min (player.matchesPlayed / 200) 1 * 20
  min (70 + recentImprovement + fitnessBonus - experienceFactor) 100

/-- `AnalyticsEngine.weightedAverage` over value/weight pairs. -/
def weightedAverage (items : List (JsNum × ℚ)) : JsNum :=
  let totalWeight := sumQ (items.map Prod.snd)
  let weightedSum := items.foldl (fun sum item => sum + item.1 * jq item.2) (jq 0)
  weightedSum / jq totalWeight

/-- `AnalyticsEngine.calculatePerformanceMetrics`. -/
def calculatePerformanceMetrics (player : Player) : PerformanceMetrics :=
  let battingRating := calculateBattingRating player
  let bowlingRating := calculateBowlingRating player
  let fieldingRating := player.fieldingRating
  let consistencyScore := calculateConsistency player
  let impactScore := calculateImpactScore player
  let formIndex := calculateFormIndex player
  let potentialRating := calculatePotential player
  let overallRating := weightedAverage [
    (battingRating, if player.role = "Bowler" then 15/100 else 35/100),
    (bowlingRating, if player.role = "Batsman" then 1/10 else 3/10),
    (jq fieldingRating, 15/100),
    (jq consistencyScore, 15/100),
    (jq impactScore, 15/100),
    (jq player.fitnessScore, 1/10)]
  { overallRating := roundTo1 overallRating
    battingRating := roundTo1 battingRating
    bowlingRating := roundTo1 bowlingRating
    fieldingRating := fieldingRating
    consistencyScore := ratRound (consistencyScore * 10) / 10
    impactScore := ratRound (impactScore * 10) / 10
    formIndex := roundTo1 formIndex
    potentialRating := ratRound (potentialRating * 10) / 10 }

/-- `AnalyticsEngine.determineFormTrend`. -/
def determineFormTrend (runs : List ℚ) : FormTrend :=
  if runs.length < 6 then .stable
  else
    let recent3 := sumQ (lastN 3 runs) / 3
    let previous3 := sumQ ((runs.drop (runs.length - 6)).take 3) / 3
    let change := if 0 < previous3 then (recent3 - previous3) / previous3 * 100 else 0
    if 15 < change then .rising
    else if change < -15 then .declining
    else .stable

/-- `AnalyticsEngine.calculateStreak`: walks from the last match backwards;
a neutral first element stops immediately as in the source loop. -/
def calculateStreak (runs : List ℚ) : Streak :=
  match runs.reverse with
  | [] => ⟨.neutral, 0⟩
  | r :: rest =>
      if 30 ≤ r then ⟨.positive, 1 + (rest.takeWhile (fun x => decide (30 ≤ x))).length⟩
      else if r < 15 then ⟨.negative, 1 + (rest.takeWhile (fun x => decide (x < 15))).length⟩
      else ⟨.neutral, 1⟩

/-- `AnalyticsEngine.analyzeForm` (the dead local `overallAvg` of the source
is omitted). -/
def analyzeForm (player : Player) : FormAnalysis :=
  let runs := player.runsPerMatch
  let last5 := lastN 5 runs
  let last5Avg := if 0 < last5.length then sumQ last5 / last5.length else 0
  let formScore := calculateFormIndex player
  let currentForm : CurrentForm :=
    if geb formScore (jq 80) then .excellent
    else if geb formScore (jq 60) then .good
    else if geb formScore (jq 40) then .average
    else if geb formScore (jq 20) then .poor
    else .critical
  { currentForm := currentForm
    formTrend := determineFormTrend runs
    last5MatchesAvg := ratRound (last5Avg * 10) / 10
    formScore := roundTo1 formScore
    streak := calculateStreak runs }

/-- `AnalyticsEngine.calculateBattingDepth`: the division by
`battingPlayers.length` is unguarded (NaN on a roster with no player whose
batting average exceeds 20). -/
def calculateBattingDepth (e : AnalyticsEngine) : JsNum :=
  let battingPlayers := e.players.filter (fun p => decide (20 < p.battingAverage))
  let avgBattingAverage := jq (sumQ (battingPlayers.map Player.battingAverage)) / jq battingPlayers.length
  let depthScore := ((battingPlayers.length : ℚ) / 7) * 50
  let qualityScore := jmin (avgBattingAverage * jq (15/10)) (jq 50)
  jq depthScore + qualityScore

/-- `AnalyticsEngine.calculateBowlingStrength`: the division is guarded. -/
def calculateBowlingStrength (e : AnalyticsEngine) : ℚ :=
  let bowlingPlayers := e.players.filter (fun p => decide (10 < p.wickets))
  let avgEconomy :=
    if 0 < bowlingPlayers.length then sumQ (bowlingPlayers.map Player.bowlingEconomy) / bowlingPlayers.length
    else 10
  let varietyScore := ((bowlingPlayers.length : ℚ) / 5) * 40
  let economyScore := max (60 - avgEconomy * 6) 0
  varietyScore + economyScore

/-- `AnalyticsEngine.calculateFieldingEfficiency`: divisions by
`players.length` are unguarded (NaN on the empty roster). -/
def calculateFieldingEfficiency (e : AnalyticsEngine) : JsNum :=
  let avgFielding := jq (sumQ (e.players.map Player.fieldingRating)) / jq e.players.length
  let catchRate := jq (sumQ (e.players.map Player.catches)) / jq e.players.length / jq 10
  jmin (avgFielding * jq (7/10) + catchRate * jq 30) (jq 100)

/-- `AnalyticsEngine.calculateTeamBalance`. -/
def calculateTeamBalance (e : AnalyticsEngine) : ℚ :=
  let nBatsman := (e.players.filter (fun p => decide (p.role = "Batsman"))).length
  let nBowler := (e.players.filter (fun p => decide (p.role = "Bowler"))).length
  let nAllRounder := (e.players.filter (fun p => decide (p.role = "All-Rounder"))).length
  let nKeeper := (e.players.filter (fun p => decide (p.role = "Wicket-Keeper"))).length
  let score1 : ℚ := 100
  let score2 := if nBatsman < 3 ∨ 6 < nBatsman then score1 - 20 else score1
  let score3 := if nBowler < 3 ∨ 6 < nBowler then score2 - 20 else score2
  let score4 := if nAllRounder < 1 ∨ 4 < nAllRounder then score3 - 15 else score3
  let score5 := if nKeeper < 1 ∨ 2 < nKeeper then score4 - 10 else score4
  max score5 0

/-- `AnalyticsEngine.identifyWeaknesses`. -/
def identifyWeaknesses (e : AnalyticsEngine)
    (batsmen bowlers allRounders keepers : List Player) : List String :=
  (if batsmen.length < 4 then ["Insufficient batting depth"] else [])
  ++ (if bowlers.length < 4 then ["Limited bowling options"] else [])
  ++ (if allRounders.length < 2 then ["Lack of all-rounders"] else [])
  ++ (if keepers.length < 1 then ["No dedicated wicket-keeper"] else [])
  ++ (let avgFitness := jq (sumQ (e.players.map Player.fitnessScore)) / jq e.players.length
      if ltb avgFitness (jq 80) then ["Overall team fitness below optimal"] else [])
  ++ (let poorFormPlayers := e.players.filter (fun p =>
        decide ((analyzeForm p).currentForm = .poor) || decide ((analyzeForm p).currentForm = .critical))
      if 3 ≤ poorFormPlayers.length then ["Multiple players out of form"] else [])

/-- `AnalyticsEngine.identifyStrengths`. -/
def identifyStrengths (e : AnalyticsEngine)
    (batsmen bowlers allRounders keepers : List Player) : List String :=
  (if 2 ≤ (batsmen.filter (fun p => decide (45 < p.battingAverage))).length
     then ["Strong top-order batting"] else [])
  ++ (if 2 ≤ (bowlers.filter (fun p => decide (p.bowlingEconomy < 5))).length
     then ["Economical bowling attack"] else [])
  ++ (let avgFielding := jq (sumQ (e.players.map Player.fieldingRating)) / jq e.players.length
      if ltb (jq 80) avgFielding then ["Excellent fielding unit"] else [])
  ++ (if 3 ≤ allRounders.length then ["Deep all-round capability"] else [])
  ++ (let inFormPlayers := e.players.filter (fun p =>
        decide ((analyzeForm p).currentForm = .excellent) || decide ((analyzeForm p).currentForm = .good))
      if (e.players.length : ℚ) * (6/10) ≤ (inFormPlayers.length : ℚ)
        then ["Majority of squad in good form"] else [])

/-- `AnalyticsEngine.analyzeTeam`. -/
def analyzeTeam (e : AnalyticsEngine) : TeamAnalytics :=
  let batsmen := e.players.filter (fun p => decide (p.role = "Batsman"))
  let bowlers := e.players.filter (fun p => decide (p.role = "Bowler"))
  let allRounders := e.players.filter (fun p => decide (p.role = "All-Rounder"))
  let keepers := e.players.filter (fun p => decide (p.role = "Wicket-Keeper"))
  let battingDepth := calculateBattingDepth e
  let bowlingStrength := calculateBowlingStrength e
  let fieldingEfficiency := calculateFieldingEfficiency e
  let balanceScore := calculateTeamBalance e
  let teamStrength := (battingDepth + jq bowlingStrength + fieldingEfficiency + jq balanceScore) / jq 4
  { teamStrength := roundTo1 teamStrength
    battingDepth := roundTo1 battingDepth
    bowlingStrength := ratRound (bowlingStrength * 10) / 10
    fieldingEfficiency := roundTo1 fieldingEfficiency
    balanceScore := ratRound (balanceScore * 10) / 10
    weaknesses := identifyWeaknesses e batsmen bowlers allRounders keepers
    strengths := identifyStrengths e batsmen bowlers allRounders keepers }

/-- `AnalyticsEngine.identifyKeyPlayers`: stable sort by descending overall
rating (the JS comparator `b.score - a.score`), top three. -/
def identifyKeyPlayers (e : AnalyticsEngine) : List Player :=
  let scored := e.players.map (fun p => (p, (calculatePerformanceMetrics p).overallRating))
  let sorted := scored.mergeSort (fun a b => ! JsNum.ltb a.2 b.2)
  (sorted.take 3).map Prod.fst

/-- `AnalyticsEngine.identifyRiskFactors`. -/
def identifyRiskFactors (e : AnalyticsEngine) : List String :=
  (let lowFitness := e.players.filter (fun p => decide (p.fitnessScore < 75))
   if 0 < lowFitness.length
     then [toString lowFitness.length ++ " player(s) with fitness concerns"] else [])
  ++ (let outOfForm := e.players.filter (fun p =>
        decide ((analyzeForm p).currentForm = .poor) || decide ((analyzeForm p).currentForm = .critical))
      if 0 < outOfForm.length
        then [toString outOfForm.length ++ " player(s) out of form"] else [])
  ++ (let inexperienced := e.players.filter (fun p => decide (p.matchesPlayed < 30))
      if 3 ≤ inexperienced.length then ["Several inexperienced players in squad"] else [])

/-- `AnalyticsEngine.generateRecommendations`. -/
def generateRecommendations (e : AnalyticsEngine) : List String :=
  let teamAnalytics := analyzeTeam e
  (if ltb teamAnalytics.battingDepth (jq 70)
     then ["Consider promoting an all-rounder up the order"] else [])
  ++ (if teamAnalytics.bowlingStrength < 70 then ["May need additional bowling support"] else [])
  ++ ["Rely on key players: " ++ String.intercalate ", " ((identifyKeyPlayers e).map Player.name)]

/-- `AnalyticsEngine.simulateMatch`. -/
def simulateMatch (e : AnalyticsEngine) (opponentStrength : ℚ) : MatchPrediction :=
  let teamAnalytics := analyzeTeam e
  let strengthDiff := teamAnalytics.teamStrength - jq opponentStrength
  let winProbability := jmin (jmax (jq 50 + strengthDiff * jq (5/10)) (jq 10)) (jq 90)
  let avgTeamRuns := e.players.foldl
    (fun sum p => sum + jq (sumQ p.runsPerMatch) / jq p.runsPerMatch.length) (jq 0)
  let avgTeamWickets := e.players.foldl
    (fun sum p => sum + jq (sumQ p.wicketsPerMatch) / jq p.wicketsPerMatch.length) (jq 0)
  { winProbability := jsRound winProbability
    expectedRuns := jsRound avgTeamRuns
    expectedWickets := jsRound avgTeamWickets
    keyPlayers := identifyKeyPlayers e
    riskFactors := identifyRiskFactors e
    recommendations := generateRecommendations e }

end AnalyticsEngine

/-- The module-level singleton `getAnalyticsEngine`: the mutable module
variable `analyticsEngineInstance` is threaded explicitly as
`Option AnalyticsEngine`. -/
def getAnalyticsEngine (players : List Player) (analyticsEngineInstance : Option AnalyticsEngine) :
    AnalyticsEngine × Option AnalyticsEngine :=
  match analyticsEngineInstance with
  | none =>
      let e : AnalyticsEngine := ⟨players⟩
      (e, some e)
  | some e =>
      let e2 := e.updatePlayers players
      (e2, some e2)

-- ==================== DATA SERVICE ====================

/-- `AppSettings` (DataService). -/
structure AppSettings where
  theme : String
  autoSave : Bool
  analyticsRefreshRate : ℚ
  showPredictions : Bool
  defaultView : String
deriving DecidableEq

/-- `HistoryEntry` (DataService); `action` is one of add/update/delete. -/
structure HistoryEntry where
  id : String
  timestamp : ℚ
  action : String
  playerId : String
  playerName : String
  details : String
deriving DecidableEq

/-- `DataServiceResponse`: success carries data, failure carries the error
string. -/
inductive DSResponse (α : Type) where
  | ok (data : α)
  | err (error : String)
deriving DecidableEq

/-- The browser-storage state the `DataService` reads and writes: the three
localStorage keys.  The in-memory cache is kept coherent with storage by
`savePlayers`/`getAllPlayers`, so a single copy models both; `players = none`
models an uninitialised storage key. -/
structure DSState where
  players : Option (List Player)
  settings : Option AppSettings
  history : List HistoryEntry
deriving DecidableEq

/-- JS truthiness of an optional string (absent and `""` are falsy). -/
def isTruthyStr : Option String → Bool
  | some s => decide (s ≠ "")
  | none => false

/-- `DataService.syncPlayerImages`: overwrite each player's image with the
one of the matching entry (by id or name) of `initialPlayers`, when that
entry has a truthy image. -/
def syncPlayerImages (initialPlayers : List Player) (players : List Player) : List Player :=
  players.map (fun player =>
    match initialPlayers.find? (fun p => decide (p.id = player.id) || decide (p.name = player.name)) with
    | some initialPlayer =>
        match initialPlayer.image with
        | some img => if img = "" then player else { player with image := some img }
        | none => player
    | none => player)

/-- `DataService.savePlayers`: writes the roster (storage and cache). -/
def savePlayers (players : List Player) (s : DSState) : DSState :=
  { s with players := some players }

/-- `DataService.getAllPlayers`: returns the image-synced roster and writes
it back; initialises storage from `initialPlayers` on first use. -/
def getAllPlayers (initialPlayers : List Player) (s : DSState) : List Player × DSState :=
  match s.players with
  | some stored =>
      let playersWithImages := syncPlayerImages initialPlayers stored
      (playersWithImages, savePlayers playersWithImages s)
  | none => (initialPlayers, savePlayers initialPlayers s)

/-- The default `AppSettings` saved by `getSettings` on first use. -/
def defaultSettings : AppSettings :=
  { theme := "neon"
    autoSave := true
    analyticsRefreshRate := 30
    showPredictions := true
    defaultView := "analytics" }

/-- `DataService.saveSettings`. -/
def saveSettings (settings : AppSettings) (s : DSState) : DSState :=
  { s with settings := some settings }

/-- `DataService.getSettings`. -/
def getSettings (s : DSState) : AppSettings × DSState :=
  match s.settings with
  | some st => (st, s)
  | none => (defaultSettings, saveSettings defaultSettings s)

/-- `DataService.addHistoryEntry`: keeps the last 100 entries.  The fresh id
(`generateId`, random) and timestamp (`Date.now()`) are inputs. -/
def addHistoryEntry (action playerId playerName details freshId : String) (now : ℚ)
    (s : DSState) : DSState :=
  let newEntry : HistoryEntry :=
    { id := freshId, timestamp := now, action := action
      playerId := playerId, playerName := playerName, details := details }
  { s with history := lastN 99 s.history ++ [newEntry] }

/-- `DataService.validatePlayer`.  In the source it takes a
`Partial<Player>`; the records validated here are total, so every
`!== undefined` guard passes and all range checks apply. -/
def validatePlayer (player : Player) : Option String :=
  if player.name = "" ∨ player.name.trim.length < 2 then
    some "Player name must be at least 2 characters"
  else if player.role = "" ∨ ¬ (player.role ∈ ["Batsman", "Bowler", "All-Rounder", "Wicket-Keeper"]) then
    some "Invalid player role"
  else if player.battingAverage < 0 ∨ 100 < player.battingAverage then
    some "Batting average must be between 0 and 100"
  else if player.strikeRate < 0 ∨ 300 < player.strikeRate then
    some "Strike rate must be between 0 and 300"
  else if player.bowlingEconomy < 0 ∨ 20 < player.bowlingEconomy then
    some "Bowling economy must be between 0 and 20"
  else if player.fitnessScore < 0 ∨ 100 < player.fitnessScore then
    some "Fitness score must be between 0 and 100"
  else none

/-- `DataService.getPlayerById`. -/
def getPlayerById (initialPlayers : List Player) (id : String) (s : DSState) :
    DSResponse Player × DSState :=
  let ga := getAllPlayers initialPlayers s
  match ga.1.find? (fun p => decide (p.id = id)) with
  | some player => (.ok player, ga.2)
  | none => (.err "Player not found", ga.2)

/-- The six-field partial update `updatePlayerStats` passes to
`updatePlayer` (the only `Partial<Player>` shape the verified paths use). -/
structure StatsPatch where
  totalRuns : ℚ
  wickets : ℚ
  matchesPlayed : ℚ
  runsPerMatch : List ℚ
  wicketsPerMatch : List ℚ
  battingAverage : ℚ
deriving DecidableEq

/-- The spread `{ ...player, ...updates }` for a `StatsPatch`. -/
def applyPatch (player : Player) (updates : StatsPatch) : Player :=
  { player with
    totalRuns := updates.totalRuns
    wickets := updates.wickets
    matchesPlayed := updates.matchesPlayed
    runsPerMatch := updates.runsPerMatch
    wicketsPerMatch := updates.wicketsPerMatch
    battingAverage := updates.battingAverage }

/-- `DataService.updatePlayer` (specialised to the `StatsPatch` update
shape): fetch, merge, validate, save, record history. -/
def updatePlayer (initialPlayers : List Player) (id : String) (updates : StatsPatch)
    (freshId : String) (now : ℚ) (s : DSState) : DSResponse Player × DSState :=
  let ga := getAllPlayers initialPlayers s
  let players := ga.1
  let s1 := ga.2
  match players.findIdx? (fun p => decide (p.id = id)) with
  | none => (.err "Player not found", s1)
  | some playerIndex =>
      match players[playerIndex]? with
      | none => (.err "Player not found", s1)
      | some found =>
          let updatedPlayer := applyPatch found updates
          match validatePlayer updatedPlayer with
          | some e => (.err e, s1)
          | none =>
              let updatedPlayers := players.set playerIndex updatedPlayer
              let s2 := savePlayers updatedPlayers s1
              let s3 := addHistoryEntry "update" id updatedPlayer.name "Updated player stats" freshId now s2
              (.ok updatedPlayer, s3)

/-- `DataService.recalculateBattingAverage`.  ℚ-division stands in for the
JS float division; on the degenerate record with `matchesPlayed + 1 = 0` JS
produces NaN/±Infinity where this model yields `0` — both pass the
subsequent range validation, and no claim depends on that corner. -/
def recalculateBattingAverage (player : Player) (newRuns : ℚ) : ℚ :=
  let totalRuns := player.totalRuns + newRuns
  let matchCount := player.matchesPlayed + 1
  ratRound (totalRuns / matchCount * 100) / 100

/-- `DataService.updatePlayerStats`. -/
def updatePlayerStats (initialPlayers : List Player) (playerId : String) (runs wickets : ℚ)
    (freshId : String) (now : ℚ) (s : DSState) : DSResponse Player × DSState :=
  let playerResponse := getPlayerById initialPlayers playerId s
  match playerResponse.1 with
  | .err _ => (.err "Player not found", playerResponse.2)
  | .ok player =>
      let updates : StatsPatch :=
        { totalRuns := player.totalRuns + runs
          wickets := player.wickets + wickets
          matchesPlayed := player.matchesPlayed + 1
          runsPerMatch := lastN 9 player.runsPerMatch ++ [runs]
          wicketsPerMatch := lastN 9 player.wicketsPerMatch ++ [wickets]
          battingAverage := recalculateBattingAverage player runs }
      updatePlayer initialPlayers playerId updates freshId now playerResponse.2

/-- The JSON payload produced by `exportData` and consumed by `importData`.
JSON serialisation of these records is faithful, so the payload value
stands for its JSON string; `importData`'s `Option` input models
`JSON.parse` (`none` = the parse throws). -/
structure ExportPayload where
  version : Option String
  exportDate : Option String
  players : Option (List Player)
  settings : Option AppSettings
  history : Option (List HistoryEntry)
deriving DecidableEq

/-- `DataService.exportData` (`exportDate` is the `new Date().toISOString()`
input). -/
def exportData (initialPlayers : List Player) (exportDate : String) (s : DSState) :
    ExportPayload × DSState :=
  let ga := getAllPlayers initialPlayers s
  let gs := getSettings ga.2
  let history := gs.2.history
  ({ version := some "1.0", exportDate := some exportDate, players := some ga.1
     settings := some gs.1, history := some history }, gs.2)

/-- `DataService.importData`: parse, check the version/players fields,
validate every player, then save players (and settings if present). -/
def importData (input : Option ExportPayload) (s : DSState) : DSResponse Unit × DSState :=
  match input with
  | none => (.err "Failed to import data", s)
  | some data =>
      if isTruthyStr data.version = false then (.err "Invalid data format", s)
      else
        match data.players with
        | none => (.err "Invalid data format", s)
        | some players =>
            match players.findSome? validatePlayer with
            | some e => (.err ("Invalid player data: " ++ e), s)
            | none =>
                let s1 := savePlayers players s
                let s2 :=
                  match data.settings with
                  | some st => saveSettings st s1
                  | none => s1
                (.ok (), s2)

-- ==================== SUPPORTING LEMMAS AND CONCRETE RECORDS ====================

/-- Whether a JS number is finite (an actual rational). -/
def JsNum.finite : JsNum → Bool
  | JsNum.num _ => true
  | _ => false

theorem JsNum.finite_exists {x : JsNum} (h : x.finite = true) : ∃ q, x = jq q := by
  cases x with
  | num q => exact ⟨q, rfl⟩
  | nan => simp [JsNum.finite] at h
  | inf => simp [JsNum.finite] at h
  | negInf => simp [JsNum.finite] at h

theorem JsNum.nan_add (x : JsNum) : JsNum.nan + x = JsNum.nan := by
  cases x <;> rfl

theorem JsNum.add_nan (x : JsNum) : x + JsNum.nan = JsNum.nan := by
  cases x <;> rfl

theorem JsNum.nan_mul (x : JsNum) : JsNum.nan * x = JsNum.nan := by
  cases x <;> rfl

theorem JsNum.mul_nan (x : JsNum) : x * JsNum.nan = JsNum.nan := by
  cases x <;> rfl

/-- A minimal player record (every statistic zero) used as the base of the
concrete instances below. -/
def basePlayer : Player :=
  { id := "p1", name := "Ab", role := "Batsman", image := none
    battingAverage := 0, strikeRate := 0, bowlingEconomy := 0, fitnessScore := 0
    fieldingRating := 0, matchesPlayed := 0, totalRuns := 0, wickets := 0
    fours := 0, sixes := 0, catches := 0, runsPerMatch := [], wicketsPerMatch := [] }

/-- A valid player with two recorded matches. -/
def pValid : Player :=
  { basePlayer with battingAverage := 30, matchesPlayed := 2, runsPerMatch := [4, 6] }

/-- A stored state holding `pValid` only. -/
def sValid : DSState :=
  { players := some [pValid], settings := some defaultSettings, history := [] }

-- ==================== CLAIMS ====================

/-- C5: `calculateConsistencyScore` returns exactly 50 for every input list
of length strictly less than 2, in particular for the empty list. -/
theorem calculateConsistencyScore_short_input (values : List ℚ) (h : values.length < 2) :
    calculateConsistencyScore values = 50 := by
  unfold calculateConsistencyScore
  simp [h]

theorem calculateConsistencyScore_short_input_witness :
    ([] : List ℚ).length < 2 ∧ calculateConsistencyScore [] = 50 :=
  ⟨by decide, calculateConsistencyScore_short_input [] (by decide)⟩

/-- C6: `compareValues` returns `equal` whenever `|a - b| < 0.01`; otherwise
it returns `higher` when `a > b` and `lower` otherwise. -/
theorem compareValues_spec (a b : ℚ) :
    (|a - b| < 1/100 → compareValues a b = .equal)
    ∧ (¬ |a - b| < 1/100 →
        (b < a → compareValues a b = .higher) ∧ (¬ b < a → compareValues a b = .lower)) := by
  unfold compareValues
  refine ⟨fun h => by rw [if_pos h], fun h => ⟨fun h2 => by rw [if_neg h, if_pos h2],
    fun h2 => by rw [if_neg h, if_neg h2]⟩⟩

theorem compareValues_spec_witness :
    (|(1:ℚ) - 1005/1000| < 1/100 ∧ compareValues 1 (1005/1000) = .equal)
    ∧ (¬ |(1:ℚ) - 0| < 1/100 ∧ compareValues 1 0 = .higher)
    ∧ (¬ |(0:ℚ) - 1| < 1/100 ∧ compareValues 0 1 = .lower) :=
  ⟨⟨by rw [abs_lt]; norm_num, (compareValues_spec 1 (1005/1000)).1 (by rw [abs_lt]; norm_num)⟩,
   ⟨by rw [abs_lt]; norm_num, ((compareValues_spec 1 0).2 (by rw [abs_lt]; norm_num)).1 (by norm_num)⟩,
   ⟨by rw [abs_lt]; norm_num, ((compareValues_spec 0 1).2 (by rw [abs_lt]; norm_num)).2 (by norm_num)⟩⟩

theorem emaAux_length (alpha prev : ℚ) (vs : List ℚ) :
    (emaAux alpha prev vs).length = vs.length := by
  induction vs generalizing prev with
  | nil => rfl
  | cons v vs ih => simp [emaAux, ih]

theorem emaAux_getD (alpha : ℚ) (vs : List ℚ) :
    ∀ (prev : ℚ) (i : ℕ), i < vs.length →
      (emaAux alpha prev vs).getD i 0
        = alpha * vs.getD i 0 + (1 - alpha) * ((prev :: emaAux alpha prev vs).getD i 0) := by
  induction vs with
  | nil => intro prev i h; simp at h
  | cons v vs ih =>
      intro prev i h
      cases i with
      | zero => simp [emaAux]
      | succ i =>
          simp only [emaAux, List.getD_cons_succ]
          exact ih _ i (by simpa using h)

/-- C7: the exponential moving average preserves length, starts at the
first input value and obeys the recurrence
`out[i+1] = alpha * values[i+1] + (1-alpha) * out[i]`; `predictNextValue`
on two or more values returns the last EMA value (alpha = 0.4) scaled by a
trend multiplier drawn from {1.05, 1, 0.95}. -/
theorem ema_predict_spec (values : List ℚ) (alpha : ℚ) :
    (calculateExponentialMovingAverage values alpha).length = values.length
    ∧ (calculateExponentialMovingAverage values alpha).head? = values.head?
    ∧ (∀ i, i + 1 < values.length →
        (calculateExponentialMovingAverage values alpha).getD (i+1) 0
          = alpha * values.getD (i+1) 0
            + (1 - alpha) * (calculateExponentialMovingAverage values alpha).getD i 0)
    ∧ (2 ≤ values.length →
        predictNextValue values
          = (calculateExponentialMovingAverage values (4/10)).getLastD 0 * predictTrendMultiplier values
        ∧ (predictTrendMultiplier values = 105/100 ∨ predictTrendMultiplier values = 1
            ∨ predictTrendMultiplier values = 95/100)) := by
  refine ⟨?_, ?_, ?_, ?_⟩
  · cases values with
    | nil => rfl
    | cons v vs => simp [calculateExponentialMovingAverage, emaAux_length]
  · cases values with
    | nil => rfl
    | cons v vs => rfl
  · intro i hi
    cases values with
    | nil => simp at hi
    | cons v vs =>
        simp only [calculateExponentialMovingAverage, List.getD_cons_succ]
        exact emaAux_getD alpha vs v i (by simpa using hi)
  · intro h
    constructor
    · match values, h with
      | v1 :: v2 :: rest, _ => rfl
    · unfold predictTrendMultiplier
      cases calculateTrendDirection values <;> simp

theorem ema_predict_spec_witness :
    (0 + 1 < ([1, 2] : List ℚ).length
      ∧ (calculateExponentialMovingAverage [1, 2] (1/2)).getD (0+1) 0
          = 1/2 * ([1, 2] : List ℚ).getD (0+1) 0
            + (1 - 1/2) * (calculateExponentialMovingAverage [1, 2] (1/2)).getD 0 0)
    ∧ (2 ≤ ([1, 2] : List ℚ).length
      ∧ predictNextValue [1, 2]
          = (calculateExponentialMovingAverage [1, 2] (4/10)).getLastD 0 * predictTrendMultiplier [1, 2]) :=
  ⟨⟨by decide, (ema_predict_spec [1, 2] (1/2)).2.2.1 0 (by decide)⟩,
   ⟨by decide, ((ema_predict_spec [1, 2] (1/2)).2.2.2 (by decide)).1⟩⟩

/-- C8: the analytics layer is deterministic and stateless: the engine
`getAnalyticsEngine` returns holds exactly the roster passed in — whatever
the hidden singleton state was — so every analytics method applied to it
(team analysis, match simulation, and the per-player pure functions)
returns the same result for equal rosters. -/
theorem getAnalyticsEngine_deterministic (ps : List Player) (s1 s2 : Option AnalyticsEngine) (opp : ℚ) :
    (getAnalyticsEngine ps s1).1 = (getAnalyticsEngine ps s2).1
    ∧ (getAnalyticsEngine ps s1).1.players = ps
    ∧ (getAnalyticsEngine ps s1).1.analyzeTeam = AnalyticsEngine.analyzeTeam ⟨ps⟩
    ∧ (getAnalyticsEngine ps s1).1.simulateMatch opp = AnalyticsEngine.simulateMatch ⟨ps⟩ opp := by
  have key : ∀ s : Option AnalyticsEngine, (getAnalyticsEngine ps s).1 = ⟨ps⟩ := by
    intro s; cases s <;> rfl
  exact ⟨(key s1).trans (key s2).symm, by rw [key s1], by rw [key s1], by rw [key s1]⟩

/-- A record with `matchesPlayed = 0` but a nonzero wicket count: the
bowling ratings divide by zero on it. -/
def pBowlerNoMatches : Player := { basePlayer with wickets := 1, bowlingEconomy := 5 }

/-- C1 (as stated) is false: on a record with `matchesPlayed = 0` and
`wickets = 1` both bowling ratings guard on `wickets`, not on
`matchesPlayed`, divide `wickets / matchesPlayed = Infinity` and return a
nonzero score (the `Math.min` clamp turns the infinite term into 100). -/
theorem perMatch_metrics_matchesPlayed_zero_cex :
    pBowlerNoMatches.matchesPlayed = 0
    ∧ AnalyticsEngine.calculateBowlingRating pBowlerNoMatches ≠ jq 0
    ∧ calculateBowlingIndex pBowlerNoMatches ≠ jq 0
    ∧ AnalyticsEngine.calculateBowlingRating pBowlerNoMatches = jq 100
    ∧ calculateBowlingIndex pBowlerNoMatches = jq (125/2) := by
  with_unfolding_all decide

/-- C1 (amended): for every record with `matchesPlayed = 0`,
`calculateRunsPerMatch` and `calculateWicketsPerMatch` return exactly 0
through their guard; the bowling ratings (`calculateBowlingRating`,
`calculateBowlingIndex`) return exactly 0 only when additionally
`wickets = 0` — their guard tests `wickets`, not `matchesPlayed`. -/
theorem perMatch_metrics_matchesPlayed_zero (p : Player) (h : p.matchesPlayed = 0) :
    calculateRunsPerMatch p = jq 0
    ∧ calculateWicketsPerMatch p = jq 0
    ∧ (p.wickets = 0 →
        AnalyticsEngine.calculateBowlingRating p = jq 0 ∧ calculateBowlingIndex p = jq 0) := by
  refine ⟨?_, ?_, fun hw => ⟨?_, ?_⟩⟩
  · simp [calculateRunsPerMatch, h]
  · simp [calculateWicketsPerMatch, h]
  · simp [AnalyticsEngine.calculateBowlingRating, hw]
  · simp [calculateBowlingIndex, hw]

theorem perMatch_metrics_matchesPlayed_zero_witness :
    basePlayer.matchesPlayed = 0 ∧ basePlayer.wickets = 0
    ∧ calculateRunsPerMatch basePlayer = jq 0
    ∧ calculateWicketsPerMatch basePlayer = jq 0
    ∧ AnalyticsEngine.calculateBowlingRating basePlayer = jq 0
    ∧ calculateBowlingIndex basePlayer = jq 0 :=
  have h := perMatch_metrics_matchesPlayed_zero basePlayer rfl
  ⟨rfl, rfl, h.1, h.2.1, (h.2.2 rfl).1, (h.2.2 rfl).2⟩

/-- A record whose only boundary statistic is one six: `fours = 0 < sixes`. -/
def pSixesOnly : Player := { basePlayer with sixes := 1 }

/-- C4 (as stated) is false: `calculateSixToFourRatio` explicitly returns
`Infinity` on `fours = 0`, `sixes = 1`, and `calculateBattingRating`
divides by `matchesPlayed` unguarded, producing `NaN` (`0/0`) on the base
record with `matchesPlayed = fours = sixes = 0`. -/
theorem analytics_divide_by_zero_guards_cex :
    calculateSixToFourRatio pSixesOnly = JsNum.inf
    ∧ AnalyticsEngine.calculateBattingRating basePlayer = JsNum.nan := by
  with_unfolding_all decide

/-- C4 (amended): among the cited analytics functions,
`calculateConsistencyScore` guards every division and always returns a
finite value in [0, 100]; `calculateSixToFourRatio` is finite only for
`fours ≠ 0` and deliberately returns `Infinity` when `fours = 0 < sixes`
(and 0 when both are 0); `calculateBattingRating` is finite whenever
`matchesPlayed ≠ 0` but its unguarded division yields `NaN` on records with
`matchesPlayed = fours = sixes = 0`. -/
theorem analytics_divide_by_zero_guards (p : Player) (values : List ℚ) :
    (0 ≤ calculateConsistencyScore values ∧ calculateConsistencyScore values ≤ 100)
    ∧ (p.fours ≠ 0 → calculateSixToFourRatio p = jq (p.sixes / p.fours))
    ∧ (p.fours = 0 → 0 < p.sixes → calculateSixToFourRatio p = JsNum.inf)
    ∧ (p.fours = 0 → ¬ 0 < p.sixes → calculateSixToFourRatio p = jq 0)
    ∧ (p.matchesPlayed ≠ 0 → (AnalyticsEngine.calculateBattingRating p).finite = true)
    ∧ (p.matchesPlayed = 0 → p.fours = 0 → p.sixes = 0 →
        AnalyticsEngine.calculateBattingRating p = JsNum.nan) := by
  refine ⟨⟨?_, ?_⟩, fun hf => ?_, fun hf hs => ?_, fun hf hs => ?_, fun hm => ?_, fun hm hf hs => ?_⟩
  · unfold calculateConsistencyScore clampQ
    split
    · norm_num
    · dsimp only
      split
      · norm_num
      · exact le_min (le_max_right _ _) (by norm_num)
  · unfold calculateConsistencyScore clampQ
    split
    · norm_num
    · dsimp only
      split
      · norm_num
      · exact min_le_right _ _
  · rw [calculateSixToFourRatio, if_neg hf, jq_div _ hf]
  · rw [calculateSixToFourRatio, if_pos hf, if_pos hs]
  · rw [calculateSixToFourRatio, if_pos hf, if_neg hs]
  · simp only [AnalyticsEngine.calculateBattingRating, jq_div _ hm, jq_mul, jq_add, jmin_jq]
    rfl
  · simp only [AnalyticsEngine.calculateBattingRating, hm, hf, hs]
    norm_num
    rfl

/-- A record with one four and no sixes, and one with a match played. -/
def pFoursOnly : Player := { basePlayer with fours := 2 }

/-- A record with one match played. -/
def pOneMatch : Player := { basePlayer with matchesPlayed := 1 }

theorem analytics_divide_by_zero_guards_witness :
    (0 ≤ calculateConsistencyScore [] ∧ calculateConsistencyScore [] ≤ 100)
    ∧ (pFoursOnly.fours ≠ 0
        ∧ calculateSixToFourRatio pFoursOnly = jq (pFoursOnly.sixes / pFoursOnly.fours))
    ∧ (pOneMatch.matchesPlayed ≠ 0
        ∧ (AnalyticsEngine.calculateBattingRating pOneMatch).finite = true) :=
  ⟨(analytics_divide_by_zero_guards basePlayer []).1,
   ⟨by with_unfolding_all decide,
    (analytics_divide_by_zero_guards pFoursOnly []).2.1 (by with_unfolding_all decide)⟩,
   ⟨by with_unfolding_all decide,
    (analytics_divide_by_zero_guards pOneMatch []).2.2.2.2.1 (by with_unfolding_all decide)⟩⟩

theorem calculateBattingDepth_num (ps : List Player)
    (h : ∃ p ∈ ps, 20 < p.battingAverage) :
    ∃ q, AnalyticsEngine.calculateBattingDepth ⟨ps⟩ = jq q := by
  apply JsNum.finite_exists
  obtain ⟨p, hp, havg⟩ := h
  have hmem : p ∈ ps.filter (fun p => decide (20 < p.battingAverage)) :=
    List.mem_filter.2 ⟨hp, by simpa using havg⟩
  have hlen : ((ps.filter (fun p => decide (20 < p.battingAverage))).length : ℚ) ≠ 0 := by
    exact_mod_cast (List.length_pos.2 (List.ne_nil_of_mem hmem)).ne'
  simp only [AnalyticsEngine.calculateBattingDepth, jq_div _ hlen, jq_mul, jq_add, jmin_jq]
  rfl

theorem calculateFieldingEfficiency_num (ps : List Player) (h : ps ≠ []) :
    ∃ q, AnalyticsEngine.calculateFieldingEfficiency ⟨ps⟩ = jq q := by
  apply JsNum.finite_exists
  have hlen : ((ps.length : ℚ)) ≠ 0 := by
    exact_mod_cast (List.length_pos.2 h).ne'
  simp only [AnalyticsEngine.calculateFieldingEfficiency, jq_div _ hlen,
    jq_div _ (show (10:ℚ) ≠ 0 by norm_num), jq_mul, jq_add, jmin_jq]
  rfl

theorem analyzeTeam_teamStrength_num (ps : List Player)
    (h : ∃ p ∈ ps, 20 < p.battingAverage) :
    ∃ q, (AnalyticsEngine.analyzeTeam ⟨ps⟩).teamStrength = jq q := by
  obtain ⟨qbd, hbd⟩ := calculateBattingDepth_num ps h
  obtain ⟨p, hp, -⟩ := h
  obtain ⟨qfe, hfe⟩ := calculateFieldingEfficiency_num ps (List.ne_nil_of_mem hp)
  apply JsNum.finite_exists
  simp only [AnalyticsEngine.analyzeTeam]
  rw [hbd, hfe]
  simp only [jq_add, jq_div _ (show (4:ℚ) ≠ 0 by norm_num), roundTo1_jq]
  rfl

/-- C2 (as stated) is false: on the empty roster `calculateBattingDepth`
and `calculateFieldingEfficiency` divide `0 / 0`, the team strength is
`NaN`, and `simulateMatch` returns `winProbability = NaN`, which lies in no
interval. -/
theorem simulateMatch_winProbability_clamped_cex :
    (AnalyticsEngine.simulateMatch ⟨[]⟩ 75).winProbability = JsNum.nan
    ∧ ¬ ∃ w : ℚ, (AnalyticsEngine.simulateMatch ⟨[]⟩ 75).winProbability = jq w
        ∧ 10 ≤ w ∧ w ≤ 90 := by
  have h : (AnalyticsEngine.simulateMatch ⟨[]⟩ 75).winProbability = JsNum.nan := by
    with_unfolding_all decide
  refine ⟨h, ?_⟩
  rintro ⟨w, hw, -, -⟩
  rw [h] at hw
  exact (JsNum.nan_ne_jq w) hw

/-- C2 (amended): for every roster containing at least one player with
batting average above 20 (so the unguarded division inside
`calculateBattingDepth` has a nonzero divisor) and every opponent strength,
the win probability is the finite value obtained by rounding the linear
expression `50 + 0.5 * (teamStrength - opponentStrength)` clamped to
[10, 90], and it lies in [10, 90]. -/
theorem simulateMatch_winProbability_clamped (ps : List Player) (opp : ℚ)
    (h : ∃ p ∈ ps, 20 < p.battingAverage) :
    ∃ ts w : ℚ,
      (AnalyticsEngine.analyzeTeam ⟨ps⟩).teamStrength = jq ts
      ∧ (AnalyticsEngine.simulateMatch ⟨ps⟩ opp).winProbability = jq w
      ∧ w = ratRound (min (max (50 + (ts - opp) * (5/10)) 10) 90)
      ∧ 10 ≤ w ∧ w ≤ 90 := by
  obtain ⟨ts, hts⟩ := analyzeTeam_teamStrength_num ps h
  refine ⟨ts, ratRound (min (max (50 + (ts - opp) * (5/10)) 10) 90), hts, ?_, rfl, ?_, ?_⟩
  · simp only [AnalyticsEngine.simulateMatch]
    rw [hts]
    simp only [jq_sub, jq_mul, jq_add, jmax_jq, jmin_jq, jsRound_jq]
  · have h10 : (10:ℚ) ≤ min (max (50 + (ts - opp) * (5/10)) 10) 90 :=
      le_min (le_max_right _ _) (by norm_num)
    have hr : ratRound 10 = 10 := by norm_num [ratRound]
    calc (10:ℚ) = ratRound 10 := hr.symm
      _ ≤ _ := ratRound_le_ratRound h10
  · have h90 : min (max (50 + (ts - opp) * (5/10)) 10) 90 ≤ 90 := min_le_right _ _
    have hr : ratRound 90 = 90 := by norm_num [ratRound]
    calc ratRound (min (max (50 + (ts - opp) * (5/10)) 10) 90)
        ≤ ratRound 90 := ratRound_le_ratRound h90
      _ = 90 := hr

theorem simulateMatch_winProbability_clamped_witness :
    (∃ p ∈ [pValid], 20 < p.battingAverage)
    ∧ ∃ ts w : ℚ,
        (AnalyticsEngine.analyzeTeam ⟨[pValid]⟩).teamStrength = jq ts
        ∧ (AnalyticsEngine.simulateMatch ⟨[pValid]⟩ 75).winProbability = jq w
        ∧ w = ratRound (min (max (50 + (ts - 75) * (5/10)) 10) 90)
        ∧ 10 ≤ w ∧ w ≤ 90 :=
  have hp : ∃ p ∈ [pValid], 20 < p.battingAverage :=
    ⟨pValid, List.mem_singleton_self pValid, by with_unfolding_all decide⟩
  ⟨hp, simulateMatch_winProbability_clamped [pValid] 75 hp⟩

/-- C9: `importData` is atomic with respect to validation failure: an
unparsable payload, a falsy `version`, a missing `players` field, or any
invalid player produces an error and leaves the stored roster, settings and
history unchanged; on success every player of the payload passed validation
and exactly those players are stored. -/
theorem importData_atomic (input : Option ExportPayload) (s : DSState) :
    (input = none → importData input s = (.err "Failed to import data", s))
    ∧ (∀ d, input = some d → isTruthyStr d.version = false →
        importData input s = (.err "Invalid data format", s))
    ∧ (∀ d, input = some d → d.players = none →
        importData input s = (.err "Invalid data format", s))
    ∧ (∀ d ps p, input = some d → d.players = some ps → p ∈ ps → validatePlayer p ≠ none →
        (∃ e, (importData input s).1 = .err e) ∧ (importData input s).2 = s)
    ∧ (∀ e, (importData input s).1 = .err e → (importData input s).2 = s)
    ∧ ((importData input s).1 = .ok () →
        ∃ d ps, input = some d ∧ d.players = some ps
          ∧ (∀ p ∈ ps, validatePlayer p = none)
          ∧ (importData input s).2.players = some ps) := by
  refine ⟨?_, ?_, ?_, ?_, ?_, ?_⟩
  · rintro rfl; rfl
  · rintro d rfl hv
    simp [importData, hv]
  · rintro d rfl hp
    by_cases hv : isTruthyStr d.version = false
    · simp [importData, hv]
    · simp [importData, hv, hp]
  · rintro d ps p rfl hps hmem hval
    have hfs : ps.findSome? validatePlayer ≠ none :=
      fun hnone => hval (List.findSome?_eq_none_iff.1 hnone p hmem)
    obtain ⟨e, he⟩ := Option.ne_none_iff_exists'.mp hfs
    by_cases hv : isTruthyStr d.version = false
    · exact ⟨⟨"Invalid data format", by simp [importData, hv]⟩, by simp [importData, hv]⟩
    · exact ⟨⟨"Invalid player data: " ++ e, by simp [importData, hv, hps, he]⟩,
        by simp [importData, hv, hps, he]⟩
  · intro e he
    rcases input with _ | d
    · rfl
    · by_cases hv : isTruthyStr d.version = false
      · simp [importData, hv]
      · rcases hps : d.players with _ | ps
        · simp [importData, hv, hps]
        · rcases hfs : ps.findSome? validatePlayer with _ | e2
          · exfalso
            simp [importData, hv, hps, hfs] at he
          · simp [importData, hv, hps, hfs]
  · intro hok
    rcases input with _ | d
    · simp [importData] at hok
    · by_cases hv : isTruthyStr d.version = false
      · simp [importData, hv] at hok
      · rcases hps : d.players with _ | ps
        · simp [importData, hv, hps] at hok
        · rcases hfs : ps.findSome? validatePlayer with _ | e2
          · refine ⟨d, ps, rfl, hps, fun p hp => List.findSome?_eq_none_iff.1 hfs p hp, ?_⟩
            rcases hset : d.settings with _ | st <;>
              simp [importData, hv, hps, hfs, hset, savePlayers, saveSettings]
          · simp [importData, hv, hps, hfs] at hok

/-- A player failing validation (single-character name). -/
def pInvalidName : Player := { basePlayer with name := "X" }

/-- A well-formed payload containing an invalid player. -/
def payloadInvalid : ExportPayload :=
  { version := some "1.0", exportDate := none, players := some [pInvalidName]
    settings := none, history := none }

theorem importData_atomic_witness :
    importData none sValid = (.err "Failed to import data", sValid)
    ∧ (∃ e, (importData (some payloadInvalid) sValid).1 = .err e)
    ∧ (importData (some payloadInvalid) sValid).2 = sValid :=
  have h4 := (importData_atomic (some payloadInvalid) sValid).2.2.2.1 payloadInvalid
    [pInvalidName] pInvalidName rfl rfl (List.mem_singleton_self _)
    (by with_unfolding_all decide)
  ⟨(importData_atomic none sValid).1 rfl, h4.1, h4.2⟩

/-- C10: after every successful `updatePlayerStats`, the updated record's
`runsPerMatch`/`wicketsPerMatch` keep at most the last 10 entries and end
with the newly recorded runs and wickets, `matchesPlayed` grows by exactly
one and `totalRuns` by exactly the recorded runs; the stored roster
contains the updated record. -/
theorem updatePlayerStats_postconditions
    (init : List Player) (id freshId : String) (runs wickets now : ℚ)
    (s : DSState) (p p' : Player) (s' : DSState)
    (hget : (getPlayerById init id s).1 = .ok p)
    (hupd : updatePlayerStats init id runs wickets freshId now s = (.ok p', s')) :
    p'.runsPerMatch.length ≤ 10
    ∧ p'.runsPerMatch.getLast? = some runs
    ∧ p'.wicketsPerMatch.length ≤ 10
    ∧ p'.wicketsPerMatch.getLast? = some wickets
    ∧ p'.matchesPlayed = p.matchesPlayed + 1
    ∧ p'.totalRuns = p.totalRuns + runs
    ∧ ∃ l, s'.players = some l ∧ p' ∈ l := by
  unfold updatePlayerStats at hupd
  dsimp only at hupd
  rw [hget] at hupd
  dsimp only at hupd
  unfold updatePlayer at hupd
  dsimp only at hupd
  rcases hidx : ((getAllPlayers init (getPlayerById init id s).2).1.findIdx?
      (fun q => decide (q.id = id))) with _ | playerIndex
  · rw [hidx] at hupd
    simp at hupd
  · rw [hidx] at hupd
    dsimp only at hupd
    rcases hget2 : (getAllPlayers init (getPlayerById init id s).2).1[playerIndex]? with _ | found
    · rw [hget2] at hupd
      simp at hupd
    · rw [hget2] at hupd
      dsimp only at hupd
      rcases hval : validatePlayer (applyPatch found
          { totalRuns := p.totalRuns + runs
            wickets := p.wickets + wickets
            matchesPlayed := p.matchesPlayed + 1
            runsPerMatch := lastN 9 p.runsPerMatch ++ [runs]
            wicketsPerMatch := lastN 9 p.wicketsPerMatch ++ [wickets]
            battingAverage := recalculateBattingAverage p runs }) with _ | e
      · rw [hval] at hupd
        dsimp only at hupd
        simp only [Prod.mk.injEq, DSResponse.ok.injEq] at hupd
        obtain ⟨hp', hs'⟩ := hupd
        subst hp'
        subst hs'
        obtain ⟨hlt, -⟩ := List.getElem?_eq_some_iff.1 hget2
        refine ⟨?_, ?_, ?_, ?_, rfl, rfl, ?_⟩
        · simp only [applyPatch, lastN, List.length_append, List.length_drop, List.length_cons,
            List.length_nil]
          omega
        · exact List.getLast?_concat _
        · simp only [applyPatch, lastN, List.length_append, List.length_drop, List.length_cons,
            List.length_nil]
          omega
        · exact List.getLast?_concat _
        · exact ⟨_, rfl, List.mem_set _ playerIndex hlt _⟩
      · rw [hval] at hupd
        simp at hupd

/-- The record produced by the witness `updatePlayerStats` call below. -/
def pValidUpdated : Player :=
  { pValid with
    totalRuns := 5
    wickets := 1
    matchesPlayed := 3
    runsPerMatch := [4, 6, 5]
    wicketsPerMatch := [1]
    battingAverage := 167/100 }

/-- The history entry recorded by the witness call. -/
def hUpdateEntry : HistoryEntry :=
  { id := "h1", timestamp := 0, action := "update", playerId := "p1"
    playerName := "Ab", details := "Updated player stats" }

/-- The state produced by the witness call. -/
def sValidUpdated : DSState :=
  { players := some [pValidUpdated], settings := some defaultSettings, history := [hUpdateEntry] }

theorem updatePlayerStats_postconditions_witness :
    pValidUpdated.runsPerMatch.length ≤ 10
    ∧ pValidUpdated.runsPerMatch.getLast? = some 5
    ∧ pValidUpdated.wicketsPerMatch.length ≤ 10
    ∧ pValidUpdated.wicketsPerMatch.getLast? = some 1
    ∧ pValidUpdated.matchesPlayed = pValid.matchesPlayed + 1
    ∧ pValidUpdated.totalRuns = pValid.totalRuns + 5
    ∧ ∃ l, sValidUpdated.players = some l ∧ pValidUpdated ∈ l :=
  updatePlayerStats_postconditions [] "p1" "h1" 5 1 0 sValid pValid pValidUpdated sValidUpdated
    (by with_unfolding_all decide) (by with_unfolding_all decide)

theorem validatePlayer_syncPlayerImages (init : List Player) (l : List Player)
    (h : ∀ q ∈ l, validatePlayer q = none) :
    ∀ q ∈ syncPlayerImages init l, validatePlayer q = none := by
  intro q hq
  rw [syncPlayerImages] at hq
  obtain ⟨p, hp, rfl⟩ := List.mem_map.1 hq
  have hvp := h p hp
  rcases hfind : init.find? (fun q => decide (q.id = p.id) || decide (q.name = p.name)) with _ | ip
  · simpa [hfind] using hvp
  · rcases himg : ip.image with _ | img
    · simpa [hfind, himg] using hvp
    · by_cases hemp : img = ""
      · simpa [hfind, himg, hemp] using hvp
      · simp only [hfind, himg, if_neg hemp]
        exact hvp

/-- A stored state whose only player fails validation. -/
def sInvalid : DSState :=
  { players := some [pInvalidName], settings := some defaultSettings, history := [] }

/-- C3 (as stated) is false: exporting a stored roster holding an invalid
player (name of length 1) succeeds and reproduces that roster in the
payload, but importing the produced payload fails validation, so the
round trip does not succeed. -/
theorem exportData_importData_roundTrip_cex :
    (exportData [] "2024-01-01" sInvalid).1.players = some [pInvalidName]
    ∧ (importData (some (exportData [] "2024-01-01" sInvalid).1)
        (exportData [] "2024-01-01" sInvalid).2).1
      = .err "Invalid player data: Player name must be at least 2 characters" := by
  with_unfolding_all decide

/-- C3 (amended): for every stored roster whose players all pass
validation, exporting and re-importing the produced payload succeeds and
stores the image-synced roster — which is the roster `getAllPlayers`
serves, and is identical to the stored one whenever the stored images
already agree with `initialPlayers` (in particular when no initial entry
matches). -/
theorem exportData_importData_roundTrip (init : List Player) (d : String) (s : DSState)
    (stored : List Player) (hs : s.players = some stored)
    (hvalid : ∀ q ∈ stored, validatePlayer q = none) :
    (importData (some (exportData init d s).1) (exportData init d s).2).1 = .ok ()
    ∧ (importData (some (exportData init d s).1) (exportData init d s).2).2.players
        = some (syncPlayerImages init stored)
    ∧ (syncPlayerImages init stored = stored →
        (importData (some (exportData init d s).1) (exportData init d s).2).2.players
          = s.players) := by
  have hfs : (syncPlayerImages init stored).findSome? validatePlayer = none :=
    List.findSome?_eq_none_iff.2 (validatePlayer_syncPlayerImages init stored hvalid)
  have htruthy : isTruthyStr (some "1.0") = true := by decide
  have h12 : (importData (some (exportData init d s).1) (exportData init d s).2).1 = .ok ()
      ∧ (importData (some (exportData init d s).1) (exportData init d s).2).2.players
        = some (syncPlayerImages init stored) := by
    rcases hset : s.settings with _ | st
    · refine ⟨?_, ?_⟩ <;>
        simp [exportData, getAllPlayers, hs, savePlayers, getSettings, hset, saveSettings,
          importData, htruthy, hfs]
    · refine ⟨?_, ?_⟩ <;>
        simp [exportData, getAllPlayers, hs, savePlayers, getSettings, hset, saveSettings,
          importData, htruthy, hfs]
  exact ⟨h12.1, h12.2, fun hsync => by rw [h12.2, hsync, hs]⟩

theorem exportData_importData_roundTrip_witness :
    (∀ q ∈ [pValid], validatePlayer q = none)
    ∧ (importData (some (exportData [] "2024-01-01" sValid).1)
        (exportData [] "2024-01-01" sValid).2).1 = .ok ()
    ∧ (importData (some (exportData [] "2024-01-01" sValid).1)
        (exportData [] "2024-01-01" sValid).2).2.players
        = some (syncPlayerImages [] [pValid]) :=
  have hvalid : ∀ q ∈ [pValid], validatePlayer q = none := by
    intro q hq
    rw [List.mem_singleton.1 hq]
    with_unfolding_all decide
  have h := exportData_importData_roundTrip [] "2024-01-01" sValid [pValid] rfl hvalid
  ⟨hvalid, h.1, h.2.1⟩
